import Mathlib

/-!
Verification development for the six-cities REST backend core:
the Redis-backed cache layer (DefaultRedisClient, DefaultCacheService,
per-entity cache helpers), the cache-aside domain services
(city / rent-offer / user), and the tier-classifying rate limiter
middleware.  Each TypeScript class is embedded shallowly: stateful
methods become explicit state-passing functions over an association-list
store with absolute-time expiry, fallible machinery becomes Except-like
result types, and JSON (de)serialization is abstracted as an
encoder/decoder pair.
-/

/-! ## Shared key-value store model

The remote in-memory store behind `DefaultRedisClient`
(src/unnamed/part_010).  Entries carry an optional absolute expiry
instant (seconds); `storeLookup` performs the lazy-expiry read. -/

structure StoreEntry where
  value : String
  expiresAt : Option Nat
deriving DecidableEq, Repr

abbrev Store := List (String × StoreEntry)

def storeFind (s : Store) (k : String) : Option StoreEntry :=
  (s.find? (fun kv => kv.1 == k)).map (·.2)

def storeLookup (s : Store) (now : Nat) (k : String) : Option String :=
  match storeFind s k with
  | none => none
  | some e =>
    match e.expiresAt with
    | none => some e.value
    | some t => if now < t then some e.value else none

def storeInsert (s : Store) (k v : String) (exp : Option Nat) : Store :=
  (k, ⟨v, exp⟩) :: s.filter (fun kv => kv.1 != k)

def storeErase (s : Store) (k : String) : Store :=
  s.filter (fun kv => kv.1 != k)

/-! ### Store lemmas -/

theorem find?_key_filter_ne (s : Store) (k k' : String) (h : k' ≠ k) :
    List.find? (fun kv => kv.1 == k') (s.filter (fun kv => kv.1 != k)) =
      List.find? (fun kv => kv.1 == k') s := by
  induction s with
  | nil => rfl
  | cons kv s ih =>
    by_cases hk' : kv.1 = k'
    · have hne : kv.1 ≠ k := by rw [hk']; exact h
      rw [List.filter_cons_of_pos (by simp [hne]),
        List.find?_cons_of_pos _ (by simp [hk']),
        List.find?_cons_of_pos _ (by simp [hk'])]
    · by_cases hk : kv.1 = k
      · rw [List.filter_cons_of_neg (by simp [hk]),
          List.find?_cons_of_neg _ (by simp [hk'])]
        exact ih
      · rw [List.filter_cons_of_pos (by simp [hk]),
          List.find?_cons_of_neg _ (by simp [hk']),
          List.find?_cons_of_neg _ (by simp [hk'])]
        exact ih

theorem storeFind_insert_self (s : Store) (k v : String) (exp : Option Nat) :
    storeFind (storeInsert s k v exp) k = some ⟨v, exp⟩ := by
  simp [storeFind, storeInsert, List.find?]

theorem storeFind_insert_ne (s : Store) (k k' v : String) (exp : Option Nat)
    (h : k' ≠ k) : storeFind (storeInsert s k v exp) k' = storeFind s k' := by
  unfold storeFind storeInsert
  rw [List.find?_cons_of_neg _ (by simpa using Ne.symm h),
    find?_key_filter_ne s k k' h]

theorem storeLookup_insert_live (s : Store) (k v : String) (now t : Nat)
    (h : now < t) : storeLookup (storeInsert s k v (some t)) now k = some v := by
  simp [storeLookup, storeFind_insert_self, h]

theorem storeLookup_insert_dead (s : Store) (k v : String) (now t : Nat)
    (h : t ≤ now) : storeLookup (storeInsert s k v (some t)) now k = none := by
  simp [storeLookup, storeFind_insert_self, Nat.not_lt.mpr h]

theorem storeLookup_insert_ne (s : Store) (k k' v : String) (exp : Option Nat)
    (now : Nat) (h : k' ≠ k) :
    storeLookup (storeInsert s k v exp) now k' = storeLookup s now k' := by
  simp [storeLookup, storeFind_insert_ne s k k' v exp h]

theorem storeFind_erase_self (s : Store) (k : String) :
    storeFind (storeErase s k) k = none := by
  simp only [storeFind, storeErase, Option.map_eq_none']
  rw [List.find?_eq_none]
  intro x hx
  have hne := (List.mem_filter.mp hx).2
  simpa using hne

theorem storeLookup_erase_self (s : Store) (k : String) (now : Nat) :
    storeLookup (storeErase s k) now k = none := by
  simp [storeLookup, storeFind_erase_self]

theorem storeFind_filter_none (s : Store) (p : String × StoreEntry → Bool)
    (k : String) (h : ∀ e : StoreEntry, p (k, e) = false) :
    storeFind (s.filter p) k = none := by
  simp only [storeFind, Option.map_eq_none']
  rw [List.find?_eq_none]
  rintro ⟨k1, e⟩ hx hbeq
  have hk1 : k1 = k := by simpa using hbeq
  subst hk1
  have hps := (List.mem_filter.mp hx).2
  rw [h e] at hps
  exact Bool.false_ne_true hps

theorem storeFind_filter_mono (s : Store) (p : String × StoreEntry → Bool)
    (k : String) (h : storeFind s k = none) :
    storeFind (s.filter p) k = none := by
  simp only [storeFind, Option.map_eq_none'] at h ⊢
  rw [List.find?_eq_none] at h ⊢
  exact fun x hx => h x (List.mem_of_mem_filter hx)

theorem storeLookup_filter_none (s : Store) (p : String × StoreEntry → Bool)
    (k : String) (now : Nat) (h : ∀ e : StoreEntry, p (k, e) = false) :
    storeLookup (s.filter p) now k = none := by
  simp [storeLookup, storeFind_filter_none s p k h]

/-! ## DefaultRedisClient (src/unnamed/part_010)

Every operation first checks `!this.redis || !this.isConnectedFlag` and
returns a neutral value without touching the store when the check fails.
`hasInstance` models `this.redis !== null`; `connectedFlag` models
`this.isConnectedFlag`. -/

structure RedisClientState where
  hasInstance : Bool
  connectedFlag : Bool
  store : Store
deriving DecidableEq, Repr

def redisLive (st : RedisClientState) : Bool :=
  st.hasInstance && st.connectedFlag

def redisGet (st : RedisClientState) (now : Nat) (k : String) : Option String :=
  if redisLive st then storeLookup st.store now k else none

def redisSet (st : RedisClientState) (now : Nat) (k v : String)
    (ttlSeconds : Option Nat) : RedisClientState :=
  if redisLive st then
    match ttlSeconds with
    | some ttl =>
      if ttl != 0 then { st with store := storeInsert st.store k v (some (now + ttl)) }
      else { st with store := storeInsert st.store k v none }
    | none => { st with store := storeInsert st.store k v none }
  else st

def redisDel (st : RedisClientState) (now : Nat) (k : String) :
    Nat × RedisClientState :=
  if redisLive st then
    ((if (storeLookup st.store now k).isSome then 1 else 0),
      { st with store := storeErase st.store k })
  else (0, st)

def redisExists (st : RedisClientState) (now : Nat) (k : String) : Nat :=
  if redisLive st then
    (if (storeLookup st.store now k).isSome then 1 else 0)
  else 0

def redisExpire (st : RedisClientState) (now : Nat) (k : String) (ttl : Nat) :
    Nat × RedisClientState :=
  if redisLive st then
    match storeLookup st.store now k with
    | some v => (1, { st with store := storeInsert st.store k v (some (now + ttl)) })
    | none => (0, st)
  else (0, st)

def redisFlushdb (st : RedisClientState) : RedisClientState :=
  if redisLive st then { st with store := [] } else st

/-! ## DefaultCacheService (src/unnamed/part_009)

`get` / `set` / `delete` over the client, with JSON (de)serialization
abstracted as `enc` / `dec`.  `dec s = none` models `JSON.parse`
throwing on the stored text `s` (the surrounding try/catch turns that
into a miss).  These are the composed, non-throwing paths: the
`DefaultRedisClient` operations above never throw. -/

def cacheServiceGet {α : Type} (dec : String → Option α)
    (st : RedisClientState) (now : Nat) (k : String) : Option α :=
  match redisGet st now k with
  | none => none
  | some s => dec s

def cacheServiceSet {α : Type} (enc : α → String) (st : RedisClientState)
    (now : Nat) (k : String) (v : α) (ttlSeconds : Option Nat) :
    RedisClientState :=
  redisSet st now k (enc v) ttlSeconds

def cacheServiceDelete (st : RedisClientState) (now : Nat) (k : String) :
    RedisClientState :=
  (redisDel st now k).2

/-- C9: every `DefaultRedisClient` operation checks the liveness flag
first; when the client instance is absent or the connected flag is
down, `get` returns null, `del` / `exists` / `expire` return 0, and
`set` / `flushdb` leave the state untouched — so a `set` followed by a
`get` during disconnection yields a miss, not the written value. -/
theorem redis_client_disconnected_neutral (st : RedisClientState)
    (now now' : Nat) (k : String) (v : String) (ttlSeconds : Option Nat)
    (t : Nat) (h : st.hasInstance = false ∨ st.connectedFlag = false) :
    redisGet st now k = none ∧
    redisSet st now k v ttlSeconds = st ∧
    redisDel st now k = (0, st) ∧
    redisExists st now k = 0 ∧
    redisExpire st now k t = (0, st) ∧
    redisFlushdb st = st ∧
    redisGet (redisSet st now k v ttlSeconds) now' k = none := by
  have hlive : redisLive st = false := by
    rcases h with h | h <;> simp [redisLive, h]
  refine ⟨?_, ?_, ?_, ?_, ?_, ?_, ?_⟩ <;>
    simp [redisGet, redisSet, redisDel, redisExists, redisExpire,
      redisFlushdb, hlive]

/-- Witness for C9 at a concrete disconnected state holding a live
entry: all operations are neutral and set-then-get misses. -/
theorem redis_client_disconnected_neutral_witness :
    redisGet ⟨true, false, [("a", ⟨"1", none⟩)]⟩ 0 "a" = none ∧
    redisSet ⟨true, false, [("a", ⟨"1", none⟩)]⟩ 0 "b" "2" (some 5)
      = ⟨true, false, [("a", ⟨"1", none⟩)]⟩ ∧
    redisDel ⟨true, false, [("a", ⟨"1", none⟩)]⟩ 0 "a"
      = (0, ⟨true, false, [("a", ⟨"1", none⟩)]⟩) ∧
    redisExists ⟨true, false, [("a", ⟨"1", none⟩)]⟩ 0 "a" = 0 ∧
    redisExpire ⟨true, false, [("a", ⟨"1", none⟩)]⟩ 0 "a" 9
      = (0, ⟨true, false, [("a", ⟨"1", none⟩)]⟩) ∧
    redisFlushdb ⟨true, false, [("a", ⟨"1", none⟩)]⟩
      = ⟨true, false, [("a", ⟨"1", none⟩)]⟩ ∧
    redisGet (redisSet ⟨true, false, [("a", ⟨"1", none⟩)]⟩ 0 "b" "2" (some 5))
      1 "b" = none := by
  have h := redis_client_disconnected_neutral
    ⟨true, false, [("a", ⟨"1", none⟩)]⟩ 0 1 "a" "2" (some 5) 9
    (Or.inr rfl)
  have h2 := redis_client_disconnected_neutral
    ⟨true, false, [("a", ⟨"1", none⟩)]⟩ 0 1 "b" "2" (some 5) 9
    (Or.inr rfl)
  exact ⟨h.1, h2.2.1, h.2.2.1, h.2.2.2.1, h.2.2.2.2.1, h.2.2.2.2.2.1,
    h2.2.2.2.2.2.2⟩

/-! ## Cache service failure transparency (C3)

`DefaultCacheService.get/set/delete` each wrap the store call in
try/catch.  The underlying `RedisClient` interface call is modelled as
an arbitrary outcome (`StoreOutcome.failed` = the awaited call threw);
`JSON.parse` throwing on a stored text `s` is `dec s = none`.  Each
`...Caught` function is the catch-wrapped body of the corresponding
method of src/unnamed/part_009. -/

inductive StoreOutcome (α : Type) where
  | ok (a : α)
  | failed
deriving DecidableEq

def cacheGetCaught {α : Type} (dec : String → Option α)
    (raw : StoreOutcome (Option String)) : StoreOutcome (Option α) :=
  match raw with
  | .failed => .ok none
  | .ok none => .ok none
  | .ok (some s) => .ok (dec s)

def cacheSetCaught (write : StoreOutcome Unit) : StoreOutcome Unit :=
  match write with
  | .failed => .ok ()
  | .ok _ => .ok ()

def cacheDeleteCaught (del : StoreOutcome Nat) : StoreOutcome Unit :=
  match del with
  | .failed => .ok ()
  | .ok _ => .ok ()

/-- C3: cache `get`/`set`/`delete` never throw to the caller: every
store outcome (including failure) yields an `ok` result, a failed store
read degrades to a miss, a stored value that fails to deserialize is
returned as a miss exactly as if the key were absent, and on the
composed Redis-backed path a stored undecodable value also reads as a
miss. -/
theorem cache_service_never_throws {α : Type} (dec : String → Option α)
    (raw : StoreOutcome (Option String)) (wr : StoreOutcome Unit)
    (del : StoreOutcome Nat) (st : RedisClientState) (now : Nat)
    (k s : String) (hbad : dec s = none) :
    (∃ r, cacheGetCaught dec raw = .ok r) ∧
    cacheSetCaught wr = .ok () ∧
    cacheDeleteCaught del = .ok () ∧
    cacheGetCaught dec .failed = .ok none ∧
    cacheGetCaught dec (.ok (some s)) = cacheGetCaught dec (.ok none) ∧
    (storeLookup st.store now k = some s → cacheServiceGet dec st now k = none) := by
  refine ⟨?_, ?_, ?_, rfl, ?_, ?_⟩
  · cases raw with
    | failed => exact ⟨none, rfl⟩
    | ok o => cases o <;> exact ⟨_, rfl⟩
  · cases wr <;> rfl
  · cases del <;> rfl
  · simp [cacheGetCaught, hbad]
  · intro hlook
    unfold cacheServiceGet redisGet
    cases hlive : redisLive st
    · simp
    · simp [hlook, hbad]

/-- Concrete demonstration codec used by witnesses: encodes the number
42 as the text "42" and decodes only that text. -/
def demoEnc (n : Nat) : String :=
  if n = 42 then "42" else "?"

def demoDec (s : String) : Option Nat :=
  if s = "42" then some 42 else none

/-- Witness for C3: a concrete undecodable stored value ("garbage")
reads as a miss through both the caught path and the composed
Redis-backed path, and a failed write/delete degrades to a silent
no-op. -/
theorem cache_service_never_throws_witness :
    demoDec "garbage" = none ∧
    cacheSetCaught .failed = .ok () ∧
    cacheDeleteCaught .failed = .ok () ∧
    cacheGetCaught demoDec .failed = .ok none ∧
    cacheGetCaught demoDec (.ok (some "garbage"))
      = cacheGetCaught demoDec (.ok none) ∧
    (storeLookup [("k", ⟨"garbage", none⟩)] 0 "k" = some "garbage" →
      cacheServiceGet demoDec ⟨true, true, [("k", ⟨"garbage", none⟩)]⟩
        0 "k" = none) := by
  have hbad : demoDec "garbage" = none := by decide
  have h := cache_service_never_throws demoDec .failed .failed .failed
    ⟨true, true, [("k", ⟨"garbage", none⟩)]⟩ 0 "k" "garbage" hbad
  exact ⟨hbad, h.2.1, h.2.2.1, h.2.2.2.1, h.2.2.2.2.1, h.2.2.2.2.2⟩

/-- C5: on a connected client, `set(key, v, ttl)` with a round-tripping
serialization followed by `get(key)` within the TTL returns exactly
`v`; once the TTL has elapsed `get(key)` returns a miss. -/
theorem cache_set_get_round_trip {α : Type} (enc : α → String)
    (dec : String → Option α) (st : RedisClientState)
    (now tnow texp : Nat) (k : String) (v : α) (ttl : Nat)
    (hinst : st.hasInstance = true) (hconn : st.connectedFlag = true)
    (hcodec : dec (enc v) = some v) (httl : 0 < ttl)
    (hin : tnow < now + ttl) (hout : now + ttl ≤ texp) :
    cacheServiceGet dec (cacheServiceSet enc st now k v (some ttl)) tnow k
      = some v ∧
    cacheServiceGet dec (cacheServiceSet enc st now k v (some ttl)) texp k
      = none := by
  have hlive : redisLive st = true := by simp [redisLive, hinst, hconn]
  have httl' : (ttl != 0) = true := by
    simpa using Nat.pos_iff_ne_zero.mp httl
  have hset : cacheServiceSet enc st now k v (some ttl)
      = { st with store := storeInsert st.store k (enc v) (some (now + ttl)) } := by
    simp [cacheServiceSet, redisSet, hlive, httl']
  have hlive' : redisLive { st with
      store := storeInsert st.store k (enc v) (some (now + ttl)) } = true := by
    simp [redisLive, hinst, hconn]
  constructor
  · rw [hset]
    simp [cacheServiceGet, redisGet, hlive',
      storeLookup_insert_live st.store k (enc v) tnow (now + ttl) hin, hcodec]
  · rw [hset]
    simp [cacheServiceGet, redisGet, hlive',
      storeLookup_insert_dead st.store k (enc v) texp (now + ttl) hout]

/-- Witness for C5: storing the number 42 under "n" with TTL 60 at time
0 on a connected client, reading it back at time 0 yields 42 and
reading at time 60 yields a miss. -/
theorem cache_set_get_round_trip_witness :
    cacheServiceGet demoDec
      (cacheServiceSet demoEnc ⟨true, true, []⟩ 0 "n" 42 (some 60))
      0 "n" = some 42 ∧
    cacheServiceGet demoDec
      (cacheServiceSet demoEnc ⟨true, true, []⟩ 0 "n" 42 (some 60))
      60 "n" = none :=
  cache_set_get_round_trip demoEnc demoDec
    ⟨true, true, []⟩ 0 0 60 "n" 42 60 rfl rfl (by decide) (by decide)
    (by decide) (by decide)

/-! ## Key namespacing (C8)

`DefaultCacheService.generateKey(prefix, ...parts)` returns the
template string made of the first argument, a colon, and the remaining
arguments joined with colons (src/unnamed/part_009);
`MockCacheService.generateKey` joins all arguments with colons
(src/shared/libs/cache/mock-cache.service.ts).  `joinParts` is
JavaScript `Array.prototype.join(':')`. -/

def joinParts : List String → String
  | [] => ""
  | [p] => p
  | p :: ps => p ++ ":" ++ joinParts ps

def generateKey (pre : String) (parts : List String) : String :=
  pre ++ ":" ++ joinParts parts

def mockGenerateKey (pre : String) (parts : List String) : String :=
  joinParts (pre :: parts)

theorem joinParts_data (l : List String) :
    (joinParts l).data = List.intercalate [':'] (l.map String.data) := by
  match l with
  | [] => rfl
  | [p] => simp [joinParts, List.intercalate]
  | p :: q :: t =>
    show (p ++ ":" ++ joinParts (q :: t)).data = _
    rw [String.data_append, String.data_append, joinParts_data (q :: t)]
    simp [List.intercalate, List.intersperse]

theorem generateKey_data (pre : String) (parts : List String)
    (hn : parts ≠ []) :
    (generateKey pre parts).data
      = List.intercalate [':'] ((pre :: parts).map String.data) := by
  match parts, hn with
  | q :: t, _ =>
    show (pre ++ ":" ++ joinParts (q :: t)).data = _
    rw [String.data_append, String.data_append, joinParts_data (q :: t)]
    simp [List.intercalate, List.intersperse]

/-- C8 counterexample: `generateKey` performs no escaping or rejection
of the separator, so the distinct tuples ("a", ["b:c"]) and
("a", ["b", "c"]) collide on the very same key "a:b:c"; the mock
implementation collides identically. -/
theorem generateKey_collision_counterexample :
    generateKey "a" ["b:c"] = generateKey "a" ["b", "c"] ∧
    (("a", ["b:c"]) : String × List String) ≠ ("a", ["b", "c"]) ∧
    mockGenerateKey "a" ["b:c"] = mockGenerateKey "a" ["b", "c"] := by
  refine ⟨?_, by decide, ?_⟩ <;> decide

/-- C8 amended: `generateKey` is a deterministic colon-join, and on
tuples with a nonempty parts list none of whose components (including
the first argument) contains the separator, distinct tuples always
yield distinct keys; no escaping is performed, so this guarantee is
lost as soon as a component contains a colon. -/
theorem generateKey_injective_on_colon_free
    (p₁ p₂ : String) (l₁ l₂ : List String)
    (hp₁ : ':' ∉ p₁.data) (hp₂ : ':' ∉ p₂.data)
    (hl₁ : ∀ s ∈ l₁, ':' ∉ s.data) (hl₂ : ∀ s ∈ l₂, ':' ∉ s.data)
    (hn₁ : l₁ ≠ []) (hn₂ : l₂ ≠ [])
    (h : generateKey p₁ l₁ = generateKey p₂ l₂) :
    p₁ = p₂ ∧ l₁ = l₂ := by
  have hd : List.intercalate [':'] ((p₁ :: l₁).map String.data)
      = List.intercalate [':'] ((p₂ :: l₂).map String.data) := by
    rw [← generateKey_data p₁ l₁ hn₁, ← generateKey_data p₂ l₂ hn₂, h]
  have hcf₁ : ∀ p ∈ (p₁ :: l₁).map String.data, ':' ∉ p := by
    rintro p hp
    rcases List.mem_map.mp hp with ⟨s, hs, rfl⟩
    rcases List.mem_cons.mp hs with rfl | hs'
    · exact hp₁
    · exact hl₁ s hs'
  have hcf₂ : ∀ p ∈ (p₂ :: l₂).map String.data, ':' ∉ p := by
    rintro p hp
    rcases List.mem_map.mp hp with ⟨s, hs, rfl⟩
    rcases List.mem_cons.mp hs with rfl | hs'
    · exact hp₂
    · exact hl₂ s hs'
  have e₁ := List.splitOn_intercalate ((p₁ :: l₁).map String.data) ':'
    hcf₁ (by simp)
  have e₂ := List.splitOn_intercalate ((p₂ :: l₂).map String.data) ':'
    hcf₂ (by simp)
  have hmap : (p₁ :: l₁).map String.data = (p₂ :: l₂).map String.data := by
    rw [← e₁, ← e₂, hd]
  have hinj : Function.Injective String.data := fun a b hab => String.ext hab
  have := List.map_injective_iff.mpr hinj hmap
  exact ⟨(List.cons.injEq .. ▸ this).1, (List.cons.injEq .. ▸ this).2⟩

/-- Witness for C8 amended: for concrete colon-free tuples, distinct
parts force distinct keys. -/
theorem generateKey_injective_on_colon_free_witness :
    generateKey "user" ["profile", "1"] ≠ generateKey "user" ["profile", "2"] := by
  intro h
  have hk := generateKey_injective_on_colon_free
    "user" "user" ["profile", "1"] ["profile", "2"]
    (by decide) (by decide)
    (by intro s hs; fin_cases hs <;> decide)
    (by intro s hs; fin_cases hs <;> decide)
    (by decide) (by decide) h
  exact absurd hk.2 (by decide)

/-! ## Rate limiter tier classification (C2)

`RateLimiterMiddleware.getRateLimiter(path, method)` and its three
endpoint predicates
(src/shared/libs/rest/middleware/rate-limiter.middleware.ts,
lines 154-212).  JavaScript `path.includes(sub)` is the substring
test `pathIncludes`.  The middleware returns one limiter per tier, so
the selected limiter is modelled as the selected `Tier`. -/

inductive Tier where
  | Public
  | Auth
  | Upload
  | UserApi
deriving DecidableEq, Repr

def pathIncludes (path sub : String) : Bool :=
  decide (List.IsInfix sub.toList path.toList)

def isAuthEndpoint (path : String) : Bool :=
  pathIncludes path "/signin" ||
  pathIncludes path "/signup" ||
  pathIncludes path "/logout"

def isUploadEndpoint (path : String) : Bool :=
  pathIncludes path "/upload" ||
  pathIncludes path "/avatar" ||
  pathIncludes path "/preview" ||
  pathIncludes path "/images"

def isUserApiEndpoint (path method : String) : Bool :=
  if pathIncludes path "/favorites" || pathIncludes path "/comments" then
    true
  else if pathIncludes path "/rentOffers" || pathIncludes path "/users" then
    method != "GET"
  else
    false

def getRateLimiter (path method : String) : Tier :=
  if isAuthEndpoint path then .Auth
  else if isUploadEndpoint path then .Upload
  else if isUserApiEndpoint path method then .UserApi
  else .Public

/-- Spec-side classifier, written from the claim's words: sign-in /
sign-up / logout segments are Auth; upload / avatar / preview / images
segments are Upload; favorites or comments segments (any method), and
rentOffers / users segments with a non-GET method, are UserApi;
everything else is Public — evaluated in the fixed priority order
Auth > Upload > UserApi > Public with first match winning. -/
def classifySpec (path method : String) : Tier :=
  if pathIncludes path "/signin" || pathIncludes path "/signup" ||
      pathIncludes path "/logout" then .Auth
  else if pathIncludes path "/upload" || pathIncludes path "/avatar" ||
      pathIncludes path "/preview" || pathIncludes path "/images" then .Upload
  else if (pathIncludes path "/favorites" || pathIncludes path "/comments") ||
      ((pathIncludes path "/rentOffers" || pathIncludes path "/users") &&
        method != "GET") then .UserApi
  else .Public

theorem isUserApiEndpoint_eq_flat (path method : String) :
    isUserApiEndpoint path method
      = ((pathIncludes path "/favorites" || pathIncludes path "/comments")
        || ((pathIncludes path "/rentOffers" || pathIncludes path "/users")
            && method != "GET")) := by
  unfold isUserApiEndpoint
  cases h₁ : (pathIncludes path "/favorites" || pathIncludes path "/comments") <;>
    cases h₂ : (pathIncludes path "/rentOffers" || pathIncludes path "/users") <;>
      simp [h₁, h₂]

/-- C2: tier classification is a pure function of (path, method) that
coincides with the claim's priority-ordered classifier
(Auth > Upload > UserApi > Public, first match wins); in particular a
POST under /users whose path carries a sign-up segment matches the
UserApi pattern yet is classified Auth, favorites/comments paths are
UserApi for any method, rentOffers/users paths are UserApi exactly for
non-GET methods, and everything else is Public. -/
theorem tier_classification (path method : String) :
    getRateLimiter path method = classifySpec path method ∧
    getRateLimiter "/users/signup" "POST" = Tier.Auth ∧
    isUserApiEndpoint "/users/signup" "POST" = true ∧
    getRateLimiter "/rentOffers/1/comments" "GET" = Tier.UserApi ∧
    getRateLimiter "/rentOffers/1" "PATCH" = Tier.UserApi ∧
    getRateLimiter "/rentOffers/1" "GET" = Tier.Public ∧
    getRateLimiter "/users/1/avatar" "POST" = Tier.Upload := by
  refine ⟨?_, by decide, by decide, by decide, by decide, by decide, by decide⟩
  unfold getRateLimiter classifySpec isAuthEndpoint isUploadEndpoint
  rw [isUserApiEndpoint_eq_flat]

/-! ## Rate limiter window behaviour (C1)

The per-tier configurations are the `RATE_LIMITS` constants of
src/shared/libs/rest/middleware/rate-limiter.middleware.ts (the
AUTH entry carries skipSuccessfulRequests = true, "Don't count
successful auth").  The counter mechanics live in the external
express-rate-limit package, not in the sources, so they are modelled
from the spec. -/

structure LimiterConfig where
  windowMs : Nat
  maxRequests : Nat
  skipSuccessfulRequests : Bool
  skipFailedRequests : Bool
deriving DecidableEq, Repr

def RATE_LIMITS_PUBLIC : LimiterConfig := ⟨60000, 100, false, false⟩

def RATE_LIMITS_AUTH : LimiterConfig := ⟨60000, 5, true, false⟩

def RATE_LIMITS_UPLOAD : LimiterConfig := ⟨60000, 10, false, false⟩

def RATE_LIMITS_USER_API : LimiterConfig := ⟨60000, 1000, false, false⟩

structure WindowState where
  count : Nat
  windowStart : Nat
deriving DecidableEq, Repr

inductive Decision where
  | allow
  | reject (retryAfterMs : Nat)
deriving DecidableEq, Repr

/-- Modelled from the spec: the fixed-window counter each tier's
limiter keeps per client identity (the express-rate-limit machinery is
an external dependency; only its configuration is in the sources).
Per §3/§4.1 and P1: the window opens at the first request, the counter
is incremented then compared against the budget, an over-budget
request is rejected with the time remaining until window reset, and the
counter resets to 0 exactly at windowStart + windowLengthMs. -/
def rateHit (cfg : LimiterConfig) (st? : Option WindowState) (now : Nat) :
    Decision × WindowState :=
  let st : WindowState := match st? with
    | none => ⟨0, now⟩
    | some st => if st.windowStart + cfg.windowMs ≤ now then ⟨0, now⟩ else st
  if st.count + 1 ≤ cfg.maxRequests then
    (.allow, ⟨st.count + 1, st.windowStart⟩)
  else
    (.reject (st.windowStart + cfg.windowMs - now), ⟨st.count + 1, st.windowStart⟩)

/-- Modelled from the spec and the skip flags of the `RATE_LIMITS`
configuration: when the response settles, a request whose outcome the
tier is configured to skip is removed from the counter again. -/
def rateSettle (cfg : LimiterConfig) (st : WindowState) (success : Bool) :
    WindowState :=
  if (success && cfg.skipSuccessfulRequests) ||
      (!success && cfg.skipFailedRequests) then
    ⟨st.count - 1, st.windowStart⟩
  else st

def rateStep (cfg : LimiterConfig) (st? : Option WindowState)
    (r : Nat × Bool) : Decision × WindowState :=
  let (d, st) := rateHit cfg st? r.1
  (d, rateSettle cfg st r.2)

def rateRun (cfg : LimiterConfig) :
    Option WindowState → List (Nat × Bool) → List Decision × Option WindowState
  | st?, [] => ([], st?)
  | st?, r :: rs =>
    let (d, st) := rateStep cfg st? r
    let (ds, stf) := rateRun cfg (some st) rs
    (d :: ds, stf)

/-- The counter value an observer reads at `now` (a window whose length
has elapsed has lazily reset to 0). -/
def effectiveCount (cfg : LimiterConfig) (st? : Option WindowState)
    (now : Nat) : Nat :=
  match st? with
  | none => 0
  | some st => if st.windowStart + cfg.windowMs ≤ now then 0 else st.count

/-- A request outcome the tier's configuration actually counts. -/
def requestCounted (cfg : LimiterConfig) (success : Bool) : Bool :=
  !((success && cfg.skipSuccessfulRequests) ||
    (!success && cfg.skipFailedRequests))

set_option maxRecDepth 4000 in
/-- C1 counterexample: with the source AUTH configuration
(budget 5, skipSuccessfulRequests = true), six successful requests in
one window are all allowed — the sixth is not rejected, so the claim's
"regardless of whether the counted requests succeed or fail" fails on
the Auth tier. -/
theorem auth_budget_counterexample :
    (rateRun RATE_LIMITS_AUTH none (List.replicate 6 (0, true))).1
      = List.replicate 6 Decision.allow ∧
    RATE_LIMITS_AUTH.maxRequests = 5 ∧
    RATE_LIMITS_AUTH.skipSuccessfulRequests = true := by
  refine ⟨by decide, rfl, rfl⟩

/-- Decision sequence of a counted in-window run starting at counter
value `c` in the window that opened at `t0`. -/
def decFrom (cfg : LimiterConfig) (t0 : Nat) :
    Nat → List (Nat × Bool) → List Decision
  | _, [] => []
  | c, r :: rs =>
    (if c + 1 ≤ cfg.maxRequests then Decision.allow
     else Decision.reject (t0 + cfg.windowMs - r.1)) :: decFrom cfg t0 (c + 1) rs

theorem rateRun_counted (cfg : LimiterConfig) (t0 : Nat) :
    ∀ (reqs : List (Nat × Bool)) (c : Nat),
      (∀ r ∈ reqs, r.1 < t0 + cfg.windowMs) →
      (∀ r ∈ reqs, requestCounted cfg r.2 = true) →
      rateRun cfg (some ⟨c, t0⟩) reqs
        = (decFrom cfg t0 c reqs, some ⟨c + reqs.length, t0⟩) := by
  intro reqs
  induction reqs with
  | nil => intro c _ _; simp [rateRun, decFrom]
  | cons r rs ih =>
    intro c htimes hcount
    have ht : r.1 < t0 + cfg.windowMs := (htimes r (List.mem_cons_self ..))
    have hnr : ¬(t0 + cfg.windowMs ≤ r.1) := Nat.not_le.mpr ht
    have hcond : ((r.2 && cfg.skipSuccessfulRequests) ||
        (!r.2 && cfg.skipFailedRequests)) = false := by
      have hc := hcount r (List.mem_cons_self ..)
      unfold requestCounted at hc
      rcases Bool.eq_false_or_eq_true ((r.2 && cfg.skipSuccessfulRequests) ||
        (!r.2 && cfg.skipFailedRequests)) with h | h
      · rw [h] at hc; simp at hc
      · exact h
    have hstep : rateStep cfg (some ⟨c, t0⟩) r
        = ((if c + 1 ≤ cfg.maxRequests then Decision.allow
            else Decision.reject (t0 + cfg.windowMs - r.1)), ⟨c + 1, t0⟩) := by
      unfold rateStep rateHit rateSettle
      simp only [hnr, if_false, hcond]
      by_cases hle : c + 1 ≤ cfg.maxRequests <;> simp [hle]
    have hrest := ih (c + 1)
      (fun q hq => htimes q (List.mem_cons_of_mem r hq))
      (fun q hq => hcount q (List.mem_cons_of_mem r hq))
    have harith : c + 1 + rs.length = c + (rs.length + 1) := by omega
    simp only [rateRun, hstep, hrest, decFrom, List.length_cons]
    rw [harith]

theorem decFrom_budget (cfg : LimiterConfig) (t0 : Nat) :
    ∀ (reqs : List (Nat × Bool)) (c : Nat),
      c + reqs.length = cfg.maxRequests + 1 →
      reqs ≠ [] →
      (∀ r ∈ reqs, t0 ≤ r.1) →
      ∃ ra, ra ≤ cfg.windowMs ∧
        decFrom cfg t0 c reqs
          = List.replicate (cfg.maxRequests - c) Decision.allow
            ++ [Decision.reject ra] := by
  intro reqs
  induction reqs with
  | nil => intro c _ hne _; exact absurd rfl hne
  | cons r rs ih =>
    intro c hlen _ htimes
    cases rs with
    | nil =>
      have htr : t0 ≤ r.1 := htimes r (List.mem_cons_self ..)
      have hc : c = cfg.maxRequests := by simp at hlen; omega
      subst hc
      refine ⟨t0 + cfg.windowMs - r.1, by omega, ?_⟩
      have hnot : ¬(cfg.maxRequests + 1 ≤ cfg.maxRequests) := by omega
      simp [decFrom, hnot]
    | cons q qs =>
      have hlt : c + 1 ≤ cfg.maxRequests := by simp at hlen; omega
      obtain ⟨ra, hra, heq⟩ := ih (c + 1)
        (by simp at hlen ⊢; omega) (by simp)
        (fun p hp => htimes p (List.mem_cons_of_mem r hp))
      refine ⟨ra, hra, ?_⟩
      have hrep : List.replicate (cfg.maxRequests - c) Decision.allow
          = Decision.allow
            :: List.replicate (cfg.maxRequests - (c + 1)) Decision.allow := by
        have : cfg.maxRequests - c = (cfg.maxRequests - (c + 1)) + 1 := by omega
        rw [this, List.replicate_succ]
      rw [hrep, List.cons_append, ← heq]
      have hone : decFrom cfg t0 c (r :: q :: qs)
          = (if c + 1 ≤ cfg.maxRequests then Decision.allow
             else Decision.reject (t0 + cfg.windowMs - r.1))
            :: decFrom cfg t0 (c + 1) (q :: qs) := rfl
      rw [hone, if_pos hlt]

/-- C1 amended: for a tier with budget B > 0 and window W > 0, a client
issuing B+1 requests that the tier's configuration actually counts
(all tiers count failed requests; Public/Upload/UserApi also count
successful ones, while the source AUTH configuration skips successful
requests), all within one window opened by the first request, receives
exactly B allows followed by a rejection whose retry-after is at most
W; every further counted request before the window end is rejected with
the remaining time; at any instant from windowStart + W on the
effective counter reads 0 again and a fresh request is allowed. -/
theorem rate_budget_amended (cfg : LimiterConfig) (t0 : Nat)
    (reqs : List (Nat × Bool))
    (hmax : 0 < cfg.maxRequests) (hwin : 0 < cfg.windowMs)
    (hlen : reqs.length = cfg.maxRequests + 1)
    (hfirst : reqs.head?.map Prod.fst = some t0)
    (htimes : ∀ r ∈ reqs, t0 ≤ r.1 ∧ r.1 < t0 + cfg.windowMs)
    (hcount : ∀ r ∈ reqs, requestCounted cfg r.2 = true) :
    ∃ ra, ra ≤ cfg.windowMs ∧
      (rateRun cfg none reqs).1
        = List.replicate cfg.maxRequests Decision.allow
          ++ [Decision.reject ra] ∧
      (rateRun cfg none reqs).2
        = some ⟨cfg.maxRequests + 1, t0⟩ ∧
      (∀ t' s', t0 ≤ t' → t' < t0 + cfg.windowMs →
        (rateStep cfg (rateRun cfg none reqs).2 (t', s')).1
          = Decision.reject (t0 + cfg.windowMs - t')) ∧
      (∀ now, t0 + cfg.windowMs ≤ now →
        effectiveCount cfg (rateRun cfg none reqs).2 now = 0) ∧
      (∀ t' s', t0 + cfg.windowMs ≤ t' →
        (rateStep cfg (rateRun cfg none reqs).2 (t', s')).1
          = Decision.allow) := by
  cases reqs with
  | nil => simp at hlen
  | cons r rest =>
    have hr1 : r.1 = t0 := by simpa using hfirst
    have hrestlen : rest.length = cfg.maxRequests := by simp at hlen; omega
    have hcond1 : ((r.2 && cfg.skipSuccessfulRequests) ||
        (!r.2 && cfg.skipFailedRequests)) = false := by
      have hc := hcount r (List.mem_cons_self ..)
      unfold requestCounted at hc
      rcases Bool.eq_false_or_eq_true ((r.2 && cfg.skipSuccessfulRequests) ||
        (!r.2 && cfg.skipFailedRequests)) with h | h
      · rw [h] at hc; simp at hc
      · exact h
    have h1le : 0 + 1 ≤ cfg.maxRequests := by omega
    have hstep1 : rateStep cfg none r = (Decision.allow, ⟨1, t0⟩) := by
      unfold rateStep rateHit rateSettle
      simp [hr1, h1le, hcond1]
    have hrest := rateRun_counted cfg t0 rest 1
      (fun q hq => (htimes q (List.mem_cons_of_mem r hq)).2)
      (fun q hq => hcount q (List.mem_cons_of_mem r hq))
    have hrun : rateRun cfg none (r :: rest)
        = (Decision.allow :: decFrom cfg t0 1 rest,
           some ⟨cfg.maxRequests + 1, t0⟩) := by
      simp only [rateRun, hstep1, hrest]
      rw [hrestlen, Nat.add_comm 1 cfg.maxRequests]
    have hrestne : rest ≠ [] := by
      intro hre
      rw [hre] at hrestlen
      simp at hrestlen
      omega
    obtain ⟨ra, hra, hdec⟩ := decFrom_budget cfg t0 rest 1
      (by omega) hrestne
      (fun q hq => (htimes q (List.mem_cons_of_mem r hq)).1)
    refine ⟨ra, hra, ?_, ?_, ?_, ?_, ?_⟩
    · rw [hrun]
      show Decision.allow :: decFrom cfg t0 1 rest = _
      rw [hdec]
      have hrepl : List.replicate cfg.maxRequests Decision.allow
          = Decision.allow
            :: List.replicate (cfg.maxRequests - 1) Decision.allow := by
        have : cfg.maxRequests = (cfg.maxRequests - 1) + 1 := by omega
        rw [this, List.replicate_succ]
        simp
      rw [hrepl, List.cons_append]
    · rw [hrun]
    · intro t' s' ht0 htw
      rw [hrun]
      unfold rateStep rateHit
      have hnr : ¬(t0 + cfg.windowMs ≤ t') := by omega
      have hnle : ¬(cfg.maxRequests + 1 + 1 ≤ cfg.maxRequests) := by omega
      simp [hnr, hnle]
    · intro now hnow
      rw [hrun]
      unfold effectiveCount
      simp [hnow]
    · intro t' s' ht'
      rw [hrun]
      unfold rateStep rateHit
      have h1le' : 0 + 1 ≤ cfg.maxRequests := by omega
      simp [ht', h1le']

/-- Witness for C1 amended at the source AUTH tier configuration
(budget 5, window 60000 ms) with six failed — hence counted —
requests at time 0: five allows then a rejection with retry-after at
most the window, counter effectively 0 from 60000 on, and a request at
60000 allowed again. -/
theorem rate_budget_amended_witness :
    ∃ ra, ra ≤ RATE_LIMITS_AUTH.windowMs ∧
      (rateRun RATE_LIMITS_AUTH none (List.replicate 6 (0, false))).1
        = List.replicate RATE_LIMITS_AUTH.maxRequests Decision.allow
          ++ [Decision.reject ra] ∧
      (rateRun RATE_LIMITS_AUTH none (List.replicate 6 (0, false))).2
        = some ⟨RATE_LIMITS_AUTH.maxRequests + 1, 0⟩ ∧
      (∀ t' s', 0 ≤ t' → t' < 0 + RATE_LIMITS_AUTH.windowMs →
        (rateStep RATE_LIMITS_AUTH
          (rateRun RATE_LIMITS_AUTH none (List.replicate 6 (0, false))).2
          (t', s')).1
          = Decision.reject (0 + RATE_LIMITS_AUTH.windowMs - t')) ∧
      (∀ now, 0 + RATE_LIMITS_AUTH.windowMs ≤ now →
        effectiveCount RATE_LIMITS_AUTH
          (rateRun RATE_LIMITS_AUTH none (List.replicate 6 (0, false))).2
          now = 0) ∧
      (∀ t' s', 0 + RATE_LIMITS_AUTH.windowMs ≤ t' →
        (rateStep RATE_LIMITS_AUTH
          (rateRun RATE_LIMITS_AUTH none (List.replicate 6 (0, false))).2
          (t', s')).1
          = Decision.allow) :=
  rate_budget_amended RATE_LIMITS_AUTH 0 (List.replicate 6 (0, false))
    (by decide) (by decide) (by decide) (by decide)
    (by
      intro q hq
      have hq1 := List.eq_of_mem_replicate hq
      subst hq1
      exact ⟨Nat.le_refl 0, by decide⟩)
    (by
      intro q hq
      have hq2 := List.eq_of_mem_replicate hq
      subst hq2
      decide)

/-! ## City service (src/unnamed/part_005 / part_007)

`DefaultCityService` over `CityCacheService`: `create` writes the
entity then invalidates the `cities:list` key; `find` is cache-aside
over that key.  The aggregation pipeline result is abstracted as `agg`
applied to the city table; the third component reports whether the
system of record was queried. -/

structure City where
  id : String
  name : String
deriving DecidableEq, Repr

def CITY_LIST_KEY : String := "cities:list"

structure CityState where
  cityDb : List City
  client : RedisClientState
deriving DecidableEq, Repr

def cityCreate (st : CityState) (now : Nat) (dto : City) : City × CityState :=
  let db' := st.cityDb ++ [dto]
  let client' := cacheServiceDelete st.client now CITY_LIST_KEY
  (dto, ⟨db', client'⟩)

def cityFind (encL : List City → String) (decL : String → Option (List City))
    (agg : List City → List City) (ttl : Nat) (st : CityState) (now : Nat) :
    List City × CityState × Bool :=
  match cacheServiceGet decL st.client now CITY_LIST_KEY with
  | some cs => (cs, st, false)
  | none =>
    let cities := agg st.cityDb
    (cities,
     ⟨st.cityDb,
      cacheServiceSet encL st.client now CITY_LIST_KEY cities (some ttl)⟩,
     true)

/-! ## Rent-offer service
(src/shared/modules/rent-offer/rent-offer.service.ts)

`DefaultRentOfferService.create/updateById/deleteById` with the city
table, the offer table and the cache client as explicit state.
`updateById`/`deleteById` additionally emit an event trace recording
the order of system-of-record accesses and cache invalidations. -/

structure RentOffer where
  id : String
  cityId : String
  title : String
deriving DecidableEq, Repr

structure HttpErrorData where
  status : Nat
  message : String
deriving DecidableEq, Repr

structure OfferState where
  cityDb : List String
  offerDb : List RentOffer
  client : RedisClientState
deriving DecidableEq, Repr

/-! `RentOfferCacheService`
(src/shared/modules/rent-offer/rent-offer.controller.ts): key
constants, key builders, and the invalidation helpers, which delete an
enumerated key set — for each base key the bare key (resp. the
city-scoped key) and its limit variations
[DEFAULT_OFFER_COUNT, 10, 20, 50, 100]. -/

def RENT_OFFERS_LIST_KEY : String := "rent-offers:list"

def RENT_OFFERS_CITY_KEY : String := "rent-offers:city"

def RENT_OFFERS_PREMIUM_KEY : String := "rent-offers:premium"

def RENT_OFFERS_NEW_KEY : String := "rent-offers:new"

def RENT_OFFERS_DISCUSSED_KEY : String := "rent-offers:discussed"

def RENT_OFFER_INDIVIDUAL_KEY : String := "rent-offer:individual"

/-- Modelled from the spec: `DEFAULT_OFFER_COUNT` is declared in
rent-offer.constants.ts, which is not among the provided sources (only
its importers are).  The spec fixes only that list queries are bounded
by one default limit; the canonical six-cities default of 60 is used.
No theorem below depends on the exact value beyond its membership in
the enumerated invalidation set. -/
def DEFAULT_OFFER_COUNT : Nat := 60

def limitVariations : List Nat := [DEFAULT_OFFER_COUNT, 10, 20, 50, 100]

def getListCacheKey (limit : Nat) : String :=
  generateKey RENT_OFFERS_LIST_KEY [toString limit]

def getIndividualCacheKey (rentOfferId : String) : String :=
  generateKey RENT_OFFER_INDIVIDUAL_KEY [rentOfferId]

def getCityCacheKey (cityId : String) (limit : Nat) : String :=
  generateKey RENT_OFFERS_CITY_KEY [cityId, toString limit]

/-- Sequential `cacheService.delete` over a list of keys (the for-loops
of the invalidation helpers). -/
def deleteKeys (now : Nat) (ks : List String) (st : RedisClientState) :
    RedisClientState :=
  ks.foldl (fun s k => cacheServiceDelete s now k) st

/-- The keys `invalidateListCaches` deletes, in order: for each of the
list / new / discussed base keys, the bare key and then its limit
variations. -/
def listInvalidationKeys : List String :=
  [RENT_OFFERS_LIST_KEY, RENT_OFFERS_NEW_KEY, RENT_OFFERS_DISCUSSED_KEY].flatMap
    (fun key => key :: limitVariations.map
      (fun limit => generateKey key [toString limit]))

def invalidateListCaches (now : Nat) (st : RedisClientState) :
    RedisClientState :=
  deleteKeys now listInvalidationKeys st

/-- The keys `invalidateOfferCaches` deletes for a city: for each of
the city / premium base keys, the city-scoped key and then its limit
variations. -/
def cityInvalidationKeys (cityId : String) : List String :=
  [RENT_OFFERS_CITY_KEY, RENT_OFFERS_PREMIUM_KEY].flatMap
    (fun key => generateKey key [cityId] :: limitVariations.map
      (fun limit => generateKey key [cityId, toString limit]))

def invalidateOfferCaches (cityId : String) (now : Nat)
    (st : RedisClientState) : RedisClientState :=
  deleteKeys now (cityInvalidationKeys cityId) st

def invalidateIndividualOffer (now : Nat) (rentOfferId : String)
    (st : RedisClientState) : RedisClientState :=
  cacheServiceDelete st now (getIndividualCacheKey rentOfferId)

def rentOfferCreate (st : OfferState) (now : Nat) (dto : RentOffer) :
    Except HttpErrorData RentOffer × OfferState :=
  if st.cityDb.contains dto.cityId then
    let db' := st.offerDb ++ [dto]
    let c1 := invalidateOfferCaches dto.cityId now st.client
    let c2 := invalidateListCaches now c1
    (.ok dto, ⟨st.cityDb, db', c2⟩)
  else
    (.error ⟨400, "The city does not exist"⟩, st)

inductive OfferEvent where
  | dbRead (id : String)
  | dbCityExists (cityId : String)
  | dbDelete (id : String)
  | dbUpdate (id : String)
  | cacheInvalidate (tag : String)
deriving DecidableEq, Repr

def isInvalidateEvent : OfferEvent → Bool
  | .cacheInvalidate _ => true
  | _ => false

def isDbWriteEvent : OfferEvent → Bool
  | .dbDelete _ => true
  | .dbUpdate _ => true
  | _ => false

/-- The claim's ordering property on a trace: no cache invalidation
occurs before the system-of-record write has happened. -/
def noInvalidateBeforeWrite : Bool → List OfferEvent → Bool
  | _, [] => true
  | seenWrite, e :: es =>
    if isInvalidateEvent e && !seenWrite then false
    else noInvalidateBeforeWrite (seenWrite || isDbWriteEvent e) es

def rentOfferDeleteById (st : OfferState) (now : Nat) (offerId : String) :
    Option RentOffer × OfferState × List OfferEvent :=
  match st.offerDb.find? (fun o => o.id == offerId) with
  | some offer =>
    let c1 := invalidateOfferCaches offer.cityId now st.client
    let c2 := invalidateListCaches now c1
    let c3 := invalidateIndividualOffer now offerId c2
    let db' := st.offerDb.filter (fun o => o.id != offerId)
    (some offer, ⟨st.cityDb, db', c3⟩,
     [.dbRead offerId, .cacheInvalidate "offer-caches",
      .cacheInvalidate "list-caches", .cacheInvalidate "individual-offer",
      .dbDelete offerId])
  | none =>
    (none, st, [.dbRead offerId, .dbDelete offerId])

structure UpdateRentOfferDto where
  cityId : Option String
  title : Option String
deriving DecidableEq, Repr

def applyOfferUpdate (dto : UpdateRentOfferDto) (o : RentOffer) : RentOffer :=
  { o with cityId := dto.cityId.getD o.cityId, title := dto.title.getD o.title }

def rentOfferUpdateById (st : OfferState) (now : Nat) (offerId : String)
    (dto : UpdateRentOfferDto) :
    Except HttpErrorData (Option RentOffer) × OfferState × List OfferEvent :=
  let cityEvents : List OfferEvent :=
    match dto.cityId with
    | some c => [.dbCityExists c]
    | none => []
  let cityOk : Bool :=
    match dto.cityId with
    | some c => st.cityDb.contains c
    | none => true
  if cityOk then
    match st.offerDb.find? (fun o => o.id == offerId) with
    | some offer =>
      let updated := applyOfferUpdate dto offer
      let db' := st.offerDb.map (fun o => if o.id == offerId then updated else o)
      let c1 := invalidateOfferCaches updated.cityId now st.client
      let c2 := invalidateListCaches now c1
      let c3 := invalidateIndividualOffer now offerId c2
      (.ok (some updated), ⟨st.cityDb, db', c3⟩,
       cityEvents ++ [.dbUpdate offerId, .cacheInvalidate "offer-caches",
        .cacheInvalidate "list-caches", .cacheInvalidate "individual-offer"])
    | none =>
      (.ok none, st, cityEvents ++ [.dbUpdate offerId])
  else
    (.error ⟨400, "The city does not exist"⟩, st, cityEvents)

/-- C7: creating a rent offer whose `cityId` does not exist in the
system of record fails with the 4xx-class domain error of the source
(HTTP 400, "The city does not exist"), leaving the offer table and the
cache exactly unchanged; the same referential check guards
`updateById` when `dto.cityId` is supplied, again with no state change
and no cache invalidation in the trace. -/
theorem rent_offer_missing_city_rejected (st : OfferState) (now : Nat)
    (dto : RentOffer) (updDto : UpdateRentOfferDto) (offerId c : String)
    (hcreate : st.cityDb.contains dto.cityId = false)
    (hupd : updDto.cityId = some c)
    (hupdc : st.cityDb.contains c = false) :
    ∃ e₁ e₂ : HttpErrorData,
      rentOfferCreate st now dto = (.error e₁, st) ∧
      400 ≤ e₁.status ∧ e₁.status < 500 ∧
      rentOfferUpdateById st now offerId updDto
        = (.error e₂, st, [.dbCityExists c]) ∧
      400 ≤ e₂.status ∧ e₂.status < 500 ∧
      (∀ e ∈ (rentOfferUpdateById st now offerId updDto).2.2,
        isInvalidateEvent e = false) := by
  refine ⟨⟨400, "The city does not exist"⟩, ⟨400, "The city does not exist"⟩,
    ?_, by decide, by decide, ?_, by decide, by decide, ?_⟩
  · unfold rentOfferCreate
    rw [hcreate]
    simp
  · unfold rentOfferUpdateById
    rw [hupd]
    have h' : ¬(c ∈ st.cityDb) := by simpa using hupdc
    simp [h']
  · unfold rentOfferUpdateById
    rw [hupd]
    have h' : ¬(c ∈ st.cityDb) := by simpa using hupdc
    simp [h', isInvalidateEvent]

/-- Witness for C7 at a concrete state whose city table lacks the
referenced id: create and update both fail with 400 and leave the
state untouched. -/
theorem rent_offer_missing_city_rejected_witness :
    ∃ e₁ e₂ : HttpErrorData,
      rentOfferCreate ⟨["c1"], [], ⟨true, true, []⟩⟩ 0 ⟨"o1", "nope", "t"⟩
        = (.error e₁, ⟨["c1"], [], ⟨true, true, []⟩⟩) ∧
      400 ≤ e₁.status ∧ e₁.status < 500 ∧
      rentOfferUpdateById ⟨["c1"], [], ⟨true, true, []⟩⟩ 0 "o1"
          ⟨some "nope", none⟩
        = (.error e₂, ⟨["c1"], [], ⟨true, true, []⟩⟩, [.dbCityExists "nope"]) ∧
      400 ≤ e₂.status ∧ e₂.status < 500 ∧
      (∀ e ∈ (rentOfferUpdateById ⟨["c1"], [], ⟨true, true, []⟩⟩ 0 "o1"
          ⟨some "nope", none⟩).2.2,
        isInvalidateEvent e = false) :=
  rent_offer_missing_city_rejected ⟨["c1"], [], ⟨true, true, []⟩⟩ 0
    ⟨"o1", "nope", "t"⟩ ⟨some "nope", none⟩ "o1" "nope"
    (by decide) rfl (by decide)

/-- C6 counterexample: deleting an existing offer emits all three cache
invalidations before the delete write (the source comments "Invalidate
relevant caches before deletion" and only then calls
findByIdAndDelete), so the claim's "invalidation happens only after the
system-of-record write" is false on the code. -/
theorem delete_invalidates_before_write_counterexample :
    (rentOfferDeleteById ⟨["c1"], [⟨"o1", "c1", "t"⟩], ⟨true, true, []⟩⟩
        0 "o1").2.2
      = [.dbRead "o1", .cacheInvalidate "offer-caches",
         .cacheInvalidate "list-caches", .cacheInvalidate "individual-offer",
         .dbDelete "o1"] ∧
    noInvalidateBeforeWrite false
      (rentOfferDeleteById ⟨["c1"], [⟨"o1", "c1", "t"⟩], ⟨true, true, []⟩⟩
        0 "o1").2.2 = false := by
  refine ⟨by decide, by decide⟩

/-- C6 amended: for an id absent from the system of record,
`updateById` and `deleteById` report the absence as a null result (not
an error) and leave the whole state — cache included — unchanged, with
no invalidation event in the trace; invalidation happens only when the
entity existed, and it follows the write in `updateById` but precedes
the delete write in `deleteById`. -/
theorem update_delete_not_found_amended (st : OfferState) (now : Nat)
    (offerId : String) (dto : UpdateRentOfferDto)
    (habs : st.offerDb.find? (fun o => o.id == offerId) = none)
    (hdto : dto.cityId = none) :
    rentOfferDeleteById st now offerId
      = (none, st, [.dbRead offerId, .dbDelete offerId]) ∧
    (∀ e ∈ (rentOfferDeleteById st now offerId).2.2,
      isInvalidateEvent e = false) ∧
    rentOfferUpdateById st now offerId dto
      = (.ok none, st, [.dbUpdate offerId]) ∧
    (∀ e ∈ (rentOfferUpdateById st now offerId dto).2.2,
      isInvalidateEvent e = false) ∧
    (∀ (st' : OfferState) (id' : String) (dto' : UpdateRentOfferDto),
      noInvalidateBeforeWrite false
        (rentOfferUpdateById st' now id' dto').2.2 = true) ∧
    (∀ (st' : OfferState) (id' : String),
      (∃ e ∈ (rentOfferDeleteById st' now id').2.2,
        isInvalidateEvent e = true) →
      (st'.offerDb.find? (fun o => o.id == id')).isSome = true) ∧
    (∀ (st' : OfferState) (id' : String) (offer : RentOffer),
      st'.offerDb.find? (fun o => o.id == id') = some offer →
      (rentOfferDeleteById st' now id').2.2
        = [.dbRead id', .cacheInvalidate "offer-caches",
           .cacheInvalidate "list-caches",
           .cacheInvalidate "individual-offer", .dbDelete id']) := by
  have hdel : rentOfferDeleteById st now offerId
      = (none, st, [.dbRead offerId, .dbDelete offerId]) := by
    unfold rentOfferDeleteById
    rw [habs]
  have hupd : rentOfferUpdateById st now offerId dto
      = (.ok none, st, [.dbUpdate offerId]) := by
    unfold rentOfferUpdateById
    rw [hdto, habs]
    simp
  refine ⟨hdel, ?_, hupd, ?_, ?_, ?_, ?_⟩
  · rw [hdel]
    simp [isInvalidateEvent]
  · rw [hupd]
    simp [isInvalidateEvent]
  · intro st' id' dto'
    unfold rentOfferUpdateById
    cases hdc : dto'.cityId with
    | none =>
      simp only [hdc]
      cases hfind : st'.offerDb.find? (fun o => o.id == id') <;>
        simp [hfind, noInvalidateBeforeWrite, isInvalidateEvent,
          isDbWriteEvent]
    | some c =>
      simp only [hdc]
      cases hmem : st'.cityDb.contains c <;>
        cases hfind : st'.offerDb.find? (fun o => o.id == id') <;>
          simp [hmem, hfind, noInvalidateBeforeWrite, isInvalidateEvent,
            isDbWriteEvent]
  · intro st' id' hex
    cases hfind : st'.offerDb.find? (fun o => o.id == id') with
    | none =>
      exfalso
      unfold rentOfferDeleteById at hex
      rw [hfind] at hex
      simp [isInvalidateEvent] at hex
    | some offer => simp
  · intro st' id' offer hfind
    unfold rentOfferDeleteById
    rw [hfind]

/-- Witness for C6 amended at a concrete state with no offers: delete
and update of the absent id "o9" both return a null result, keep the
state identical, and emit no invalidation. -/
theorem update_delete_not_found_amended_witness :
    rentOfferDeleteById ⟨["c1"], [], ⟨true, true, []⟩⟩ 3 "o9"
      = (none, ⟨["c1"], [], ⟨true, true, []⟩⟩,
         [.dbRead "o9", .dbDelete "o9"]) ∧
    rentOfferUpdateById ⟨["c1"], [], ⟨true, true, []⟩⟩ 3 "o9" ⟨none, none⟩
      = (.ok none, ⟨["c1"], [], ⟨true, true, []⟩⟩, [.dbUpdate "o9"]) :=
  ⟨(update_delete_not_found_amended ⟨["c1"], [], ⟨true, true, []⟩⟩ 3 "o9"
      ⟨none, none⟩ rfl rfl).1,
   (update_delete_not_found_amended ⟨["c1"], [], ⟨true, true, []⟩⟩ 3 "o9"
      ⟨none, none⟩ rfl rfl).2.2.1⟩

theorem storeLookup_of_find_none (s : Store) (k : String) (now : Nat)
    (h : storeFind s k = none) : storeLookup s now k = none := by
  simp [storeLookup, h]

theorem storeFind_erase_ne (s : Store) (k k' : String) (h : k' ≠ k) :
    storeFind (storeErase s k) k' = storeFind s k' := by
  unfold storeFind storeErase
  rw [find?_key_filter_ne s k k' h]

theorem cacheServiceDelete_flags (st : RedisClientState) (now : Nat)
    (k : String) :
    (cacheServiceDelete st now k).hasInstance = st.hasInstance ∧
    (cacheServiceDelete st now k).connectedFlag = st.connectedFlag := by
  unfold cacheServiceDelete redisDel
  cases hl : redisLive st <;> simp

theorem redisLive_cacheServiceDelete (st : RedisClientState) (now : Nat)
    (k : String) :
    redisLive (cacheServiceDelete st now k) = redisLive st := by
  have h := cacheServiceDelete_flags st now k
  simp [redisLive, h.1, h.2]

theorem cacheServiceDelete_find_none (st : RedisClientState) (now : Nat)
    (k k' : String) (h : storeFind st.store k = none) :
    storeFind (cacheServiceDelete st now k').store k = none := by
  unfold cacheServiceDelete redisDel
  cases hl : redisLive st
  · simpa using h
  · simpa using storeFind_filter_mono st.store _ k h

theorem cacheServiceDelete_find_self (st : RedisClientState) (now : Nat)
    (k : String) (hl : redisLive st = true) :
    storeFind (cacheServiceDelete st now k).store k = none := by
  unfold cacheServiceDelete redisDel
  simp [hl, storeFind_erase_self]

theorem cacheServiceDelete_lookup_ne (st : RedisClientState)
    (now now' : Nat) (k k' : String) (h : k' ≠ k) :
    storeLookup (cacheServiceDelete st now k).store now' k'
      = storeLookup st.store now' k' := by
  unfold cacheServiceDelete redisDel
  cases hl : redisLive st
  · simp
  · simp [storeLookup, storeFind_erase_ne st.store k k' h]

theorem deleteKeys_find_none (now : Nat) (ks : List String) :
    ∀ (st : RedisClientState) (k : String),
      storeFind st.store k = none →
      storeFind (deleteKeys now ks st).store k = none := by
  induction ks with
  | nil => intro st k h; exact h
  | cons k0 ks ih =>
    intro st k h
    exact ih (cacheServiceDelete st now k0) k
      (cacheServiceDelete_find_none st now k k0 h)

theorem redisLive_deleteKeys (now : Nat) (ks : List String) :
    ∀ st : RedisClientState,
      redisLive (deleteKeys now ks st) = redisLive st := by
  induction ks with
  | nil => intro st; rfl
  | cons k0 ks ih =>
    intro st
    show redisLive (deleteKeys now ks (cacheServiceDelete st now k0)) = _
    rw [ih (cacheServiceDelete st now k0),
      redisLive_cacheServiceDelete st now k0]

theorem deleteKeys_find_mem (now : Nat) (ks : List String) :
    ∀ (st : RedisClientState), redisLive st = true →
      ∀ k ∈ ks, storeFind (deleteKeys now ks st).store k = none := by
  induction ks with
  | nil => intro st _ k hk; cases hk
  | cons k0 ks ih =>
    intro st hl k hk
    show storeFind (deleteKeys now ks (cacheServiceDelete st now k0)).store k
      = none
    rcases List.mem_cons.mp hk with rfl | hk'
    · exact deleteKeys_find_none now ks (cacheServiceDelete st now k) k
        (cacheServiceDelete_find_self st now k hl)
    · exact ih (cacheServiceDelete st now k0)
        (by rw [redisLive_cacheServiceDelete st now k0]; exact hl) k hk'

theorem deleteKeys_lookup_not_mem (now now' : Nat) (ks : List String) :
    ∀ (st : RedisClientState) (k : String), (k ∈ ks → False) →
      storeLookup (deleteKeys now ks st).store now' k
        = storeLookup st.store now' k := by
  induction ks with
  | nil => intro st k _; rfl
  | cons k0 ks ih =>
    intro st k hk
    show storeLookup (deleteKeys now ks (cacheServiceDelete st now k0)).store
      now' k = _
    rw [ih (cacheServiceDelete st now k0) k
        (fun hmem => hk (List.mem_cons_of_mem k0 hmem)),
      cacheServiceDelete_lookup_ne st now now' k0 k
        (fun he => hk (he ▸ List.mem_cons_self k0 ks))]

set_option maxRecDepth 8000 in
/-- C4 counterexample: a rent-offer list array cached under the
non-enumerated limit 25 survives creation with its pre-creation value
— the invalidation helpers delete only the bare keys and the limit
variations [DEFAULT_OFFER_COUNT, 10, 20, 50, 100] — so "creating a
rent offer invalidates the list caches" is false in its universal
reading. -/
theorem create_list_cache_survives_counterexample :
    (rentOfferCreate ⟨["c1"], [], ⟨true, true,
        [("rent-offers:list:25", ⟨"old", none⟩)]⟩⟩ 0 ⟨"o1", "c1", "t"⟩).1
      = .ok ⟨"o1", "c1", "t"⟩ ∧
    storeLookup (rentOfferCreate ⟨["c1"], [], ⟨true, true,
        [("rent-offers:list:25", ⟨"old", none⟩)]⟩⟩ 0
        ⟨"o1", "c1", "t"⟩).2.client.store 1 (getListCacheKey 25)
      = some "old" := by
  refine ⟨rfl, by decide⟩

/-- C4 amended: creating a city deletes the `cities:list` key, so a
subsequent `find()` misses the cache and returns the aggregation of
the post-creation system of record; creating a rent offer writes the
offer and, before returning, deletes exactly the enumerated
invalidation key set — the bare list/new/discussed keys and their
limit variations, and the parent city's city/premium scoped keys and
theirs — while every other cache entry (e.g. a list cached under a
non-enumerated limit) is left untouched. -/
theorem create_invalidates_enumerated_caches
    (stc : CityState) (sto : OfferState) (now now' ttl : Nat)
    (dtoC : City) (dtoO : RentOffer)
    (encL : List City → String) (decL : String → Option (List City))
    (agg : List City → List City)
    (hinstC : stc.client.hasInstance = true)
    (hconnC : stc.client.connectedFlag = true)
    (hinstO : sto.client.hasInstance = true)
    (hconnO : sto.client.connectedFlag = true)
    (hcity : sto.cityDb.contains dtoO.cityId = true) :
    storeLookup ((cityCreate stc now dtoC).2).client.store now' CITY_LIST_KEY
      = none ∧
    (cityFind encL decL agg ttl (cityCreate stc now dtoC).2 now').1
      = agg (stc.cityDb ++ [dtoC]) ∧
    (cityFind encL decL agg ttl (cityCreate stc now dtoC).2 now').2.2
      = true ∧
    (∃ sto' : OfferState,
      rentOfferCreate sto now dtoO = (.ok dtoO, sto') ∧
      sto'.offerDb = sto.offerDb ++ [dtoO] ∧
      (∀ k ∈ listInvalidationKeys,
        storeLookup sto'.client.store now' k = none) ∧
      (∀ k ∈ cityInvalidationKeys dtoO.cityId,
        storeLookup sto'.client.store now' k = none) ∧
      (∀ k : String, (k ∈ listInvalidationKeys → False) →
        (k ∈ cityInvalidationKeys dtoO.cityId → False) →
        storeLookup sto'.client.store now' k
          = storeLookup sto.client.store now' k)) := by
  have hliveC : redisLive stc.client = true := by
    simp [redisLive, hinstC, hconnC]
  have hclient' : (cityCreate stc now dtoC).2.client.store
      = storeErase stc.client.store CITY_LIST_KEY := by
    simp [cityCreate, cacheServiceDelete, redisDel, hliveC]
  have h1 : storeLookup ((cityCreate stc now dtoC).2).client.store now'
      CITY_LIST_KEY = none := by
    rw [hclient']
    exact storeLookup_erase_self stc.client.store CITY_LIST_KEY now'
  have hget : cacheServiceGet decL (cityCreate stc now dtoC).2.client now'
      CITY_LIST_KEY = none := by
    unfold cacheServiceGet redisGet
    rw [h1]
    simp
  have hdb' : (cityCreate stc now dtoC).2.cityDb = stc.cityDb ++ [dtoC] := by
    simp [cityCreate]
  refine ⟨h1, ?_, ?_, ?_⟩
  · simp [cityFind, hget, hdb']
  · simp [cityFind, hget]
  · have hliveO : redisLive sto.client = true := by
      simp [redisLive, hinstO, hconnO]
    have hliveO1 : redisLive
        (invalidateOfferCaches dtoO.cityId now sto.client) = true := by
      unfold invalidateOfferCaches
      rw [redisLive_deleteKeys]
      exact hliveO
    refine ⟨⟨sto.cityDb, sto.offerDb ++ [dtoO],
        invalidateListCaches now
          (invalidateOfferCaches dtoO.cityId now sto.client)⟩,
      ?_, rfl, ?_, ?_, ?_⟩
    · unfold rentOfferCreate
      rw [hcity]
      simp
    · intro k hk
      unfold invalidateListCaches
      exact storeLookup_of_find_none _ k now'
        (deleteKeys_find_mem now listInvalidationKeys
          (invalidateOfferCaches dtoO.cityId now sto.client) hliveO1 k hk)
    · intro k hk
      unfold invalidateListCaches invalidateOfferCaches
      exact storeLookup_of_find_none _ k now'
        (deleteKeys_find_none now listInvalidationKeys _ k
          (deleteKeys_find_mem now (cityInvalidationKeys dtoO.cityId)
            sto.client hliveO k hk))
    · intro k hkl hkc
      unfold invalidateListCaches invalidateOfferCaches
      rw [deleteKeys_lookup_not_mem now now' listInvalidationKeys _ k hkl,
        deleteKeys_lookup_not_mem now now' (cityInvalidationKeys dtoO.cityId)
          sto.client k hkc]

set_option maxRecDepth 8000 in
/-- Witness for C4 amended: creating "Rotterdam" over a client caching
an old `cities:list` array leaves that key absent, and creating an
offer in city "c1" over a client caching the default-limit list key
and a city-scoped key deletes both enumerated keys while the
limit-25 list entry survives untouched. -/
theorem create_invalidates_enumerated_caches_witness :
    storeLookup ((cityCreate ⟨[], ⟨true, true, [("cities:list", ⟨"old", none⟩)]⟩⟩
        0 ⟨"cid", "Rotterdam"⟩).2).client.store 1 CITY_LIST_KEY = none ∧
    (∃ sto' : OfferState,
      rentOfferCreate ⟨["c1"], [], ⟨true, true,
          [("rent-offers:list:60", ⟨"x", none⟩),
           ("rent-offers:city:c1:10", ⟨"y", none⟩),
           ("rent-offers:list:25", ⟨"z", none⟩)]⟩⟩ 0 ⟨"o1", "c1", "t"⟩
        = (.ok ⟨"o1", "c1", "t"⟩, sto') ∧
      sto'.offerDb = [] ++ [⟨"o1", "c1", "t"⟩] ∧
      (∀ k ∈ listInvalidationKeys,
        storeLookup sto'.client.store 1 k = none) ∧
      (∀ k ∈ cityInvalidationKeys "c1",
        storeLookup sto'.client.store 1 k = none) ∧
      (∀ k : String, (k ∈ listInvalidationKeys → False) →
        (k ∈ cityInvalidationKeys "c1" → False) →
        storeLookup sto'.client.store 1 k
          = storeLookup (⟨true, true,
              [("rent-offers:list:60", ⟨"x", none⟩),
               ("rent-offers:city:c1:10", ⟨"y", none⟩),
               ("rent-offers:list:25", ⟨"z", none⟩)]⟩ : RedisClientState).store
              1 k)) := by
  have h := create_invalidates_enumerated_caches
    ⟨[], ⟨true, true, [("cities:list", ⟨"old", none⟩)]⟩⟩
    ⟨["c1"], [], ⟨true, true, [("rent-offers:list:60", ⟨"x", none⟩),
      ("rent-offers:city:c1:10", ⟨"y", none⟩),
      ("rent-offers:list:25", ⟨"z", none⟩)]⟩⟩
    0 1 60 ⟨"cid", "Rotterdam"⟩ ⟨"o1", "c1", "t"⟩
    (fun _ => "L") (fun _ => none) id rfl rfl rfl rfl (by decide)
  exact ⟨h.1, h.2.2.2⟩

/-! ## User service (src/shared/modules/user/user-cache.service.ts and
src/unnamed/part_007's sibling DefaultUserService)

`findByEmail` is cache-aside over the by-email profile key and, on a
miss that finds the user, also populates the by-id profile key;
`findById` is cache-aside over the by-id profile key.  The third
result component reports whether the system of record was queried. -/

structure User where
  id : String
  email : String
  name : String
deriving DecidableEq, Repr

def USER_PROFILE_KEY : String := "user:profile"

def getProfileKey (userId : String) : String :=
  generateKey USER_PROFILE_KEY [userId]

def getProfileByEmailKey (email : String) : String :=
  generateKey USER_PROFILE_KEY ["email", email]

def userFindByEmail (enc : User → String) (dec : String → Option User)
    (db : List User) (st : RedisClientState) (now ttl : Nat)
    (email : String) : Option User × RedisClientState × Bool :=
  match cacheServiceGet dec st now (getProfileByEmailKey email) with
  | some u => (some u, st, false)
  | none =>
    match db.find? (fun w => w.email == email) with
    | none => (none, st, true)
    | some u =>
      let st1 := cacheServiceSet enc st now (getProfileByEmailKey email) u
        (some ttl)
      let st2 := cacheServiceSet enc st1 now (getProfileKey u.id) u (some ttl)
      (some u, st2, true)

def userFindById (enc : User → String) (dec : String → Option User)
    (db : List User) (st : RedisClientState) (now ttl : Nat)
    (userId : String) : Option User × RedisClientState × Bool :=
  match cacheServiceGet dec st now (getProfileKey userId) with
  | some u => (some u, st, false)
  | none =>
    match db.find? (fun w => w.id == userId) with
    | none => (none, st, true)
    | some u =>
      (some u, cacheServiceSet enc st now (getProfileKey userId) u (some ttl),
       true)

theorem redisSet_flags (st : RedisClientState) (now : Nat) (k v : String)
    (ttlSeconds : Option Nat) :
    (redisSet st now k v ttlSeconds).hasInstance = st.hasInstance ∧
    (redisSet st now k v ttlSeconds).connectedFlag = st.connectedFlag := by
  unfold redisSet
  cases hl : redisLive st
  · simp
  · cases ttlSeconds with
    | none => simp
    | some t => by_cases ht : (t != 0) = true <;> simp [ht]

theorem redisLive_redisSet (st : RedisClientState) (now : Nat) (k v : String)
    (ttlSeconds : Option Nat) :
    redisLive (redisSet st now k v ttlSeconds) = redisLive st := by
  have h := redisSet_flags st now k v ttlSeconds
  simp [redisLive, h.1, h.2]

theorem redisSet_store_live (st : RedisClientState) (now : Nat)
    (k v : String) (ttl : Nat) (hl : redisLive st = true)
    (ht : (ttl != 0) = true) :
    (redisSet st now k v (some ttl)).store
      = storeInsert st.store k v (some (now + ttl)) := by
  simp [redisSet, hl, ht]

/-- C10: a `findByEmail` that misses the cache and finds the user in
the system of record populates two cache entries — the by-email
profile key and the by-id profile key — each with the user-profile
TTL, so that within the TTL a subsequent `findById` for that user is a
cache hit that returns the user without querying the system of record
(whatever its current contents). -/
theorem find_by_email_populates_both_profile_keys
    (enc : User → String) (dec : String → Option User)
    (db db' : List User) (st : RedisClientState) (now now' ttl : Nat)
    (email : String) (u : User)
    (hinst : st.hasInstance = true) (hconn : st.connectedFlag = true)
    (hcodec : dec (enc u) = some u) (httl : 0 < ttl)
    (hmiss : cacheServiceGet dec st now (getProfileByEmailKey email) = none)
    (hdb : db.find? (fun w => w.email == email) = some u)
    (hwithin : now' < now + ttl) :
    (userFindByEmail enc dec db st now ttl email).1 = some u ∧
    (userFindByEmail enc dec db st now ttl email).2.2 = true ∧
    storeFind (userFindByEmail enc dec db st now ttl email).2.1.store
      (getProfileByEmailKey email) = some ⟨enc u, some (now + ttl)⟩ ∧
    storeFind (userFindByEmail enc dec db st now ttl email).2.1.store
      (getProfileKey u.id) = some ⟨enc u, some (now + ttl)⟩ ∧
    userFindById enc dec db'
      (userFindByEmail enc dec db st now ttl email).2.1 now' ttl u.id
      = (some u, (userFindByEmail enc dec db st now ttl email).2.1,
         false) := by
  have hlive : redisLive st = true := by simp [redisLive, hinst, hconn]
  have httl' : (ttl != 0) = true := by
    simpa using Nat.pos_iff_ne_zero.mp httl
  have hR : userFindByEmail enc dec db st now ttl email
      = (some u,
         cacheServiceSet enc
           (cacheServiceSet enc st now (getProfileByEmailKey email) u
             (some ttl))
           now (getProfileKey u.id) u (some ttl),
         true) := by
    unfold userFindByEmail
    rw [hmiss, hdb]
  have hS1store :
      (cacheServiceSet enc st now (getProfileByEmailKey email) u
        (some ttl)).store
      = storeInsert st.store (getProfileByEmailKey email) (enc u) (some (now + ttl)) := by
    unfold cacheServiceSet
    exact redisSet_store_live st now (getProfileByEmailKey email) (enc u) ttl
      hlive httl' 
  have hS1live :
      redisLive (cacheServiceSet enc st now (getProfileByEmailKey email) u
        (some ttl)) = true := by
    unfold cacheServiceSet
    rw [redisLive_redisSet]
    exact hlive
  have hS2store :
      (cacheServiceSet enc
        (cacheServiceSet enc st now (getProfileByEmailKey email) u (some ttl))
        now (getProfileKey u.id) u (some ttl)).store
      = storeInsert
          (cacheServiceSet enc st now (getProfileByEmailKey email) u
            (some ttl)).store
          (getProfileKey u.id) (enc u) (some (now + ttl)) := by
    show (redisSet (cacheServiceSet enc st now (getProfileByEmailKey email) u
      (some ttl)) now (getProfileKey u.id) (enc u) (some ttl)).store = _
    exact redisSet_store_live _ now (getProfileKey u.id) (enc u) ttl
      hS1live httl' 
  have hS2live :
      redisLive (cacheServiceSet enc
        (cacheServiceSet enc st now (getProfileByEmailKey email) u (some ttl))
        now (getProfileKey u.id) u (some ttl)) = true := by
    unfold cacheServiceSet
    rw [redisLive_redisSet, redisLive_redisSet]
    exact hlive
  refine ⟨by rw [hR], by rw [hR], ?_, ?_, ?_⟩
  · rw [hR]
    show storeFind _ (getProfileByEmailKey email) = _
    rw [hS2store]
    by_cases hkeq : getProfileByEmailKey email = getProfileKey u.id
    · rw [hkeq]
      exact storeFind_insert_self ..
    · rw [storeFind_insert_ne _ _ _ _ _ hkeq, hS1store]
      exact storeFind_insert_self ..
  · rw [hR]
    show storeFind _ (getProfileKey u.id) = _
    rw [hS2store]
    exact storeFind_insert_self ..
  · rw [hR]
    show userFindById enc dec db' _ now' ttl u.id = _
    have hlookup : storeLookup
        (cacheServiceSet enc
          (cacheServiceSet enc st now (getProfileByEmailKey email) u
            (some ttl))
          now (getProfileKey u.id) u (some ttl)).store
        now' (getProfileKey u.id) = some (enc u) := by
      rw [hS2store]
      exact storeLookup_insert_live _ _ _ _ _ hwithin
    have hget : cacheServiceGet dec
        (cacheServiceSet enc
          (cacheServiceSet enc st now (getProfileByEmailKey email) u
            (some ttl))
          now (getProfileKey u.id) u (some ttl))
        now' (getProfileKey u.id) = some u := by
      unfold cacheServiceGet redisGet
      rw [hS2live, hlookup]
      simp [hcodec]
    unfold userFindById
    rw [hget]

/-- Concrete demonstration codec for `User` witnesses. -/
def demoUserEnc (u : User) : String :=
  u.id ++ "|" ++ u.email ++ "|" ++ u.name

def demoUserDec (s : String) : Option User :=
  if s = "u1|a@b|n" then some ⟨"u1", "a@b", "n"⟩ else none

/-- Witness for C10: with a one-user system of record and an empty
connected cache, `findByEmail "a@b"` returns the user, stores both
profile entries with expiry 7200, and a `findById` against an empty
system of record still hits the cache at time 10 without querying. -/
theorem find_by_email_populates_both_profile_keys_witness :
    (userFindByEmail demoUserEnc demoUserDec [⟨"u1", "a@b", "n"⟩]
      ⟨true, true, []⟩ 0 7200 "a@b").1 = some ⟨"u1", "a@b", "n"⟩ ∧
    (userFindByEmail demoUserEnc demoUserDec [⟨"u1", "a@b", "n"⟩]
      ⟨true, true, []⟩ 0 7200 "a@b").2.2 = true ∧
    storeFind (userFindByEmail demoUserEnc demoUserDec [⟨"u1", "a@b", "n"⟩]
      ⟨true, true, []⟩ 0 7200 "a@b").2.1.store
      (getProfileByEmailKey "a@b")
      = some ⟨demoUserEnc ⟨"u1", "a@b", "n"⟩, some (0 + 7200)⟩ ∧
    storeFind (userFindByEmail demoUserEnc demoUserDec [⟨"u1", "a@b", "n"⟩]
      ⟨true, true, []⟩ 0 7200 "a@b").2.1.store
      (getProfileKey "u1")
      = some ⟨demoUserEnc ⟨"u1", "a@b", "n"⟩, some (0 + 7200)⟩ ∧
    userFindById demoUserEnc demoUserDec []
      (userFindByEmail demoUserEnc demoUserDec [⟨"u1", "a@b", "n"⟩]
        ⟨true, true, []⟩ 0 7200 "a@b").2.1 10 7200 "u1"
      = (some ⟨"u1", "a@b", "n"⟩,
         (userFindByEmail demoUserEnc demoUserDec [⟨"u1", "a@b", "n"⟩]
           ⟨true, true, []⟩ 0 7200 "a@b").2.1, false) :=
  find_by_email_populates_both_profile_keys demoUserEnc demoUserDec
    [⟨"u1", "a@b", "n"⟩] [] ⟨true, true, []⟩ 0 10 7200 "a@b"
    ⟨"u1", "a@b", "n"⟩ rfl rfl (by decide) (by decide) (by decide)
    (by decide) (by decide)
